import Mathlib

/-!
Verification development for the IntlLocale polyfill (src/src/polyfill.js).

The JavaScript source is shallowly embedded over `String`/`List Char`:
every operation of the polyfill that the claims touch is translated into an
executable Lean definition.  JavaScript exceptions (RangeError for invalid
tags, the ReferenceError raised by reading an undefined identifier, the
TypeError raised by reading a property of `undefined`) are modelled with an
`Except JSError` result type.  All tags handled by the library are ASCII
(spec section 6), so `toLowerCase`/`toUpperCase` are embedded as ASCII
case mappings.
-/

/-- Errors a call into the polyfill can raise.  `referenceError n` models the
JavaScript ReferenceError raised when the undefined identifier `n` is
evaluated; `rangeError` models `throw new RangeError(msg)`; `typeError`
models reading a property of `undefined`. -/
inductive JSError where
  | referenceError (name : String)
  | rangeError (msg : String)
  | typeError (msg : String)
deriving DecidableEq, Repr

/-- ASCII lower-casing of one character, as String.prototype.toLowerCase acts
on the ASCII strings this library handles. -/
def lowerChar (c : Char) : Char :=
  if 'A' ≤ c ∧ c ≤ 'Z' then Char.ofNat (c.toNat + 32) else c

/-- ASCII upper-casing of one character. -/
def upperChar (c : Char) : Char :=
  if 'a' ≤ c ∧ c ≤ 'z' then Char.ofNat (c.toNat - 32) else c

/-- locale.toLowerCase() on ASCII input. -/
def asciiLower (s : String) : String :=
  String.mk (s.data.map lowerChar)

/-- subtag.toUpperCase() on ASCII input. -/
def asciiUpper (s : String) : String :=
  String.mk (s.data.map upperChar)

/-- subtag[0].toUpperCase() + subtag.substring(1): upper-case the first
character, keep the rest. -/
def upperFirst (s : String) : String :=
  match s.data with
  | [] => s
  | c :: rest => String.mk (upperChar c :: rest)

/-- s.startsWith(p). -/
def jsStartsWith (s p : String) : Bool :=
  p.data.isPrefixOf s.data

/-- Index of the first occurrence of the pattern in the character list,
starting the count at `i`; `none` when absent.  Embeds
String.prototype.indexOf for the nonempty literal patterns the source uses. -/
def firstIdxFrom (pat : List Char) : List Char → Nat → Option Nat
  | [], i => if pat.isPrefixOf ([] : List Char) then some i else none
  | c :: t, i =>
    if pat.isPrefixOf (c :: t) then some i else firstIdxFrom pat t (i + 1)

/-- Split a character list at every occurrence of `sep`, keeping empty
pieces, exactly as String.prototype.split with a one-character separator. -/
def splitChars (sep : Char) : List Char → List (List Char)
  | [] => [[]]
  | c :: rest =>
    if c = sep then [] :: splitChars sep rest
    else
      match splitChars sep rest with
      | [] => [[c]]
      | h :: t => (c :: h) :: t

/-- locale.split('-'). -/
def splitTag (s : String) : List String :=
  (splitChars '-' s.data).map String.mk

/-- subtags.join('-'). -/
def joinHyphen : List String → String
  | [] => ""
  | [s] => s
  | s :: rest => s ++ "-" ++ joinHyphen rest

/-- ALPHA of RFC 5234: A-Z / a-z.  The language-tag regular expressions are
case-insensitive, which their character classes realize by listing both
cases. -/
def isAlphaC (c : Char) : Bool :=
  ('A' ≤ c && c ≤ 'Z') || ('a' ≤ c && c ≤ 'z')

/-- DIGIT of RFC 5234: 0-9. -/
def isDigitC (c : Char) : Bool :=
  '0' ≤ c && c ≤ '9'

/-- alphanum = ALPHA / DIGIT. -/
def isAlphanumC (c : Char) : Bool :=
  isAlphaC c || isDigitC c

/-- language first alternative: 2*3ALPHA (shortest ISO 639 code). -/
def primary23B (s : String) : Bool :=
  decide (2 ≤ s.data.length) && decide (s.data.length ≤ 3) && s.data.all isAlphaC

/-- language second alternative: 4ALPHA. -/
def lang4B (s : String) : Bool :=
  decide (s.data.length = 4) && s.data.all isAlphaC

/-- language third alternative: 5*8ALPHA. -/
def lang58B (s : String) : Bool :=
  decide (5 ≤ s.data.length) && decide (s.data.length ≤ 8) && s.data.all isAlphaC

/-- one extlang piece: 3ALPHA. -/
def extlangSubB (s : String) : Bool :=
  decide (s.data.length = 3) && s.data.all isAlphaC

/-- script = 4ALPHA. -/
def scriptB (s : String) : Bool :=
  decide (s.data.length = 4) && s.data.all isAlphaC

/-- region = 2ALPHA / 3DIGIT. -/
def regionB (s : String) : Bool :=
  (decide (s.data.length = 2) && s.data.all isAlphaC) ||
  (decide (s.data.length = 3) && s.data.all isDigitC)

/-- variant = 5*8alphanum / (DIGIT 3alphanum). -/
def variantB (s : String) : Bool :=
  (decide (5 ≤ s.data.length) && decide (s.data.length ≤ 8) && s.data.all isAlphanumC) ||
  (decide (s.data.length = 4) &&
    (match s.data with
     | c :: rest => isDigitC c && rest.all isAlphanumC
     | [] => false))

/-- singleton = DIGIT / A-W / Y-Z / a-w / y-z: one alphanumeric character
other than x or X. -/
def singletonB (s : String) : Bool :=
  match s.data with
  | [c] => isAlphanumC c && decide (c ≠ 'x') && decide (c ≠ 'X')
  | _ => false

/-- one extension subtag: 2*8alphanum. -/
def extSubB (s : String) : Bool :=
  decide (2 ≤ s.data.length) && decide (s.data.length ≤ 8) && s.data.all isAlphanumC

/-- one privateuse subtag: 1*8alphanum. -/
def pvSubB (s : String) : Bool :=
  decide (1 ≤ s.data.length) && decide (s.data.length ≤ 8) && s.data.all isAlphanumC

/-- privateuse = 'x' 1*('-' 1*8alphanum), case-insensitively (the whole
language-tag regular expression carries the i flag). -/
def privateuseB : List String → Bool
  | x :: rest => (asciiLower x == "x") && !rest.isEmpty && rest.all pvSubB
  | [] => false

/-- Scanner state for the `*(extension) [privateuse]` tail of a langtag. -/
inductive ExtScanState where
  | atBoundary
  | afterSingleton
  | inGroup
deriving DecidableEq

/-- Deterministic scan of the subtag list after all variants, accepting
`*(extension) ['-' privateuse]` followed by end of input.  The subtag
shapes decide the parse: a one-character non-x subtag starts an extension
sequence, a 2-8 alphanumeric subtag continues the current sequence, and an
`x`/`X` subtag starts the private-use suffix.  `afterSingleton` records
that the current extension sequence still needs its first subtag. -/
def extScan : ExtScanState → List String → Bool
  | st, [] => decide (st ≠ ExtScanState.afterSingleton)
  | st, s :: rest =>
    if singletonB s then
      decide (st ≠ ExtScanState.afterSingleton) && extScan ExtScanState.afterSingleton rest
    else if extSubB s then
      decide (st ≠ ExtScanState.atBoundary) && extScan ExtScanState.inGroup rest
    else
      decide (st ≠ ExtScanState.afterSingleton) && privateuseB (s :: rest)

/-- `*('-' variant)` followed by the extension/private-use tail. -/
def variantPart : List String → Bool
  | [] => true
  | s :: rest => (variantB s && variantPart rest) || extScan ExtScanState.atBoundary (s :: rest)

/-- `['-' region]` followed by variants and the tail. -/
def regionPart (l : List String) : Bool :=
  (match l with
   | s :: rest => regionB s && variantPart rest
   | [] => false) || variantPart l

/-- `['-' script]` followed by region, variants and the tail. -/
def scriptPart (l : List String) : Bool :=
  (match l with
   | s :: rest => scriptB s && regionPart rest
   | [] => false) || regionPart l

/-- After a 2-3 letter primary language subtag: `['-' extlang]` (one to
three 3ALPHA pieces) then script, region, variants and the tail. -/
def afterPrimary (rest : List String) : Bool :=
  scriptPart rest ||
  (match rest with
   | e1 :: r1 =>
     extlangSubB e1 &&
       (scriptPart r1 ||
        (match r1 with
         | e2 :: r2 =>
           extlangSubB e2 &&
             (scriptPart r2 ||
              (match r2 with
               | e3 :: r3 => extlangSubB e3 && scriptPart r3
               | [] => false))
         | [] => false))
   | [] => false)

/-- langtag = language ['-' script] ['-' region] *('-' variant)
*('-' extension) ['-' privateuse], decided over the '-'-split subtags. -/
def langtagB : List String → Bool
  | [] => false
  | p :: rest =>
    (primary23B p && afterPrimary rest) ||
    (lang4B p && scriptPart rest) ||
    (lang58B p && scriptPart rest)

/-- The grandfathered (irregular and regular) whole tags enumerated in the
languageTagRE construction, lower-cased; the regular expression is
case-insensitive, so membership is decided on the lower-cased input. -/
def grandfatheredList : List String :=
  ["en-gb-oed", "i-ami", "i-bnn", "i-default", "i-enochian", "i-hak",
   "i-klingon", "i-lux", "i-mingo", "i-navajo", "i-pwn", "i-tao", "i-tay",
   "i-tsu", "sgn-be-fr", "sgn-be-nl", "sgn-ch-de",
   "art-lojban", "cel-gaulish", "no-bok", "no-nyn", "zh-guoyu", "zh-hakka",
   "zh-min", "zh-min-nan", "zh-xiang"]

/-- languageTagRE.test(locale) (src/src/polyfill.js lines 32-116): the
anchored, case-insensitive RFC 5646 Language-Tag grammar
`langtag / privateuse / grandfathered`.  A string matches the anchored
regular expression exactly when its '-'-split subtag list is generated by
the corresponding production. -/
def languageTagTest (locale : String) : Bool :=
  langtagB (splitTag locale) || privateuseB (splitTag locale) ||
    grandfatheredList.contains (asciiLower locale)

/-- The prefix `(?:alphanum{2,8}-)+` of duplicateVariantRE, which must end at
the separator immediately before the captured variant: satisfiable exactly
when the preceding subtag ends in at least two alphanumeric characters (a
repetition may start mid-subtag but cannot cross a separator). -/
def duplicateVariantPrefB (s : String) : Bool :=
  decide (2 ≤ s.data.length) &&
    (s.data.drop (s.data.length - 2)).all isAlphanumC

/-- One intermediate repetition `alphanum{2,8}-` of duplicateVariantRE: a
whole subtag of two to eight alphanumeric characters (this is what stops
the search before extension singletons). -/
def duplicateVariantInterB (s : String) : Bool :=
  decide (2 ≤ s.data.length) && decide (s.data.length ≤ 8) && s.data.all isAlphanumC

/-- duplicateVariantRE.test(locale) (src/src/polyfill.js lines 118-154),
decided over the '-'-split subtags.  Because every repetition of the
pattern ends at a literal separator, the captured variant and its
backreference occurrence both sit on whole-subtag boundaries, and the
trailing `(?!alphanum)` pins the backreference to a subtag end; the
intermediate repetitions cover the subtags strictly between the two
occurrences.  The RegExp is constructed without the i flag, so the
backreference comparison `\1` is exact (case-sensitive), even though the
character classes themselves cover both cases. -/
def duplicateVariantTest (locale : String) : Bool :=
  (List.range (splitTag locale).length).any fun j =>
    (List.range j).any fun i =>
      decide (1 ≤ i) &&
      variantB ((splitTag locale).getD i "") &&
      ((splitTag locale).getD j "" == (splitTag locale).getD i "") &&
      duplicateVariantPrefB ((splitTag locale).getD (i - 1) "") &&
      ((List.range j).all fun k =>
        decide (k ≤ i) || duplicateVariantInterB ((splitTag locale).getD k ""))

/-- duplicateSingletonRE.test(locale) (src/src/polyfill.js lines 156-191),
decided over the '-'-split subtags.  The pattern `-(singleton)-` anchors
the captured singleton between two separators (a whole one-character
subtag, not the first subtag), the repetitions `(?:alphanum+-)*` cover the
whole subtags strictly between the occurrences, and `(?!alphanum)` pins
the backreference to a subtag boundary.  As with duplicateVariantRE, the
RegExp carries no i flag, so the backreference match is case-sensitive. -/
def duplicateSingletonTest (locale : String) : Bool :=
  (List.range (splitTag locale).length).any fun j =>
    (List.range j).any fun i =>
      decide (1 ≤ i) &&
      singletonB ((splitTag locale).getD i "") &&
      ((splitTag locale).getD j "" == (splitTag locale).getD i "") &&
      ((List.range j).all fun k =>
        decide (k ≤ i) ||
          (!((splitTag locale).getD k "").data.isEmpty &&
            ((splitTag locale).getD k "").data.all isAlphanumC))

/-- isStructurallyValidLanguageTag (src/src/polyfill.js lines 219-238):
grammar membership, then the pure-private-use short-circuit, then the
duplicate-variant and duplicate-singleton tests on the portion before the
first "-x-" boundary. -/
def isStructurallyValidLanguageTag (locale : String) : Bool :=
  if !languageTagTest locale then false
  else if jsStartsWith locale "x-" then true
  else
    (match firstIdxFrom "-x-".data locale.data 0 with
     | some pos =>
       !duplicateVariantTest (String.mk (locale.data.take pos)) &&
       !duplicateSingletonTest (String.mk (locale.data.take pos))
     | none =>
       !duplicateVariantTest locale && !duplicateSingletonTest locale)

/-- removeUnicodeExtensions (src/src/polyfill.js lines 196-211).  The source
splits the tag at the first "-x-" boundary (or the end of the string) into
`left = locale.substring(0, pos)` and `right = locale.substring(pos)` and
returns `left + right` - the two pieces concatenated straight back
together.  The compiled unicodeLocaleExtensionSequenceRE (line 21) is
never applied to `left`, so no "-u-..." sequence is ever removed. -/
def removeUnicodeExtensions (locale : String) : String :=
  if jsStartsWith locale "x-" then locale
  else
    String.mk (locale.data.take
      ((firstIdxFrom "-x-".data locale.data 0).getD locale.data.length)) ++
    String.mk (locale.data.drop
      ((firstIdxFrom "-x-".data locale.data 0).getD locale.data.length))

/-- One entry of the extlangMappings table: the preferred replacement subtag
and the required primary-language p refix (named `pfx` here). -/
structure ExtlangEntry where
  preferred : String
  pfx : String
deriving DecidableEq, Repr

/-- The three mapping tables the canonicalizer consults
(src/src/polyfill.js lines 23-25), modelled as association lists;
`hasOwnProperty`/indexing becomes `List.lookup`. -/
structure MappingTables where
  langTagMappings : List (String × String)
  langSubtagMappings : List (String × String)
  extlangMappings : List (String × ExtlangEntry)

/-- The tables exactly as initialized in src/src/polyfill.js lines 23-25:
all three are empty objects. -/
def srcTables : MappingTables :=
  { langTagMappings := [], langSubtagMappings := [], extlangMappings := [] }

/-- Modelled from the spec: the three mapping tables are declared as empty
objects in src/src/polyfill.js (lines 23-25) and their contents are the
external locale-registry data of the locale-data provider (spec sections 1
and 3, "treated as injected data").  This instance holds only the entries
the spec itself names for claim C5: the deprecated-region subtag mapping
BU to MM (keys of the subtag table are case-normalized, so the key is the
upper-cased region code), and the extlang entry for nan, whose preferred
value is nan and whose required p refix language is zh. -/
def specTables : MappingTables :=
  { langTagMappings := [],
    langSubtagMappings := [("BU", "MM")],
    extlangMappings := [("nan", { preferred := "nan", pfx := "zh" })] }

/-- Re-casing done inside the standard-part loop (lines 295-304): a
4-character subtag is a script code and gets a capital first letter; a
2-character subtag not in initial position is a region code and is
upper-cased. -/
def recaseSubtag (i : Nat) (subtag : String) : String :=
  if subtag.data.length = 4 then upperFirst subtag
  else if i ≠ 0 ∧ subtag.data.length = 2 then asciiUpper subtag
  else subtag

/-- The standard-part while loop of canonicalizeLanguageTag
(src/src/polyfill.js lines 283-329), embedded with a fuel parameter for
structural recursion.  Each iteration either advances `i` by one or (in
the extlang p refix-elision branch) shortens the array by one while
leaving `i` in place, so `subtags.length - i` decreases by exactly one per
iteration and the initial fuel `subtags.length` is never exhausted before
the loop condition fails; on exhausted fuel the function returns the same
state the loop would return.  The branch for a mapped extlang re-reads
`extlangMappings[subtag]` after `subtag` has been reassigned to the
preferred value (line 322); when that second lookup misses, the source
would read `.prefix` of `undefined`, a TypeError. -/
def stdLoopFuel (T : MappingTables) : Nat → List String → Nat → Except JSError (List String × Nat)
  | 0, subtags, i => .ok (subtags, i)
  | fuel + 1, subtags, i =>
    if i < subtags.length then
      if (subtags.getD i "").data.length = 1 ∧ (0 < i ∨ subtags.getD i "" = "x") then
        .ok (subtags, i)
      else
        match List.lookup (recaseSubtag i (subtags.getD i "")) T.langSubtagMappings with
        | some v => stdLoopFuel T fuel (subtags.set i v) (i + 1)
        | none =>
          match List.lookup (recaseSubtag i (subtags.getD i "")) T.extlangMappings with
          | some e =>
            if i = 1 then
              match List.lookup e.preferred T.extlangMappings with
              | some e2 =>
                if e2.pfx = subtags.getD 0 "" then
                  stdLoopFuel T fuel ((subtags.drop 1).set 0 e.preferred) 1
                else
                  stdLoopFuel T fuel (subtags.set i e.preferred) (i + 1)
              | none => .error (.typeError "cannot read prop of undefined")
            else
              stdLoopFuel T fuel (subtags.set i e.preferred) (i + 1)
          | none =>
            stdLoopFuel T fuel (subtags.set i (recaseSubtag i (subtags.getD i ""))) (i + 1)
    else
      .ok (subtags, i)

/-- Code-unit lexicographic order on character lists, the comparison
Array.prototype.sort applies to strings. -/
def charListLe : List Char → List Char → Bool
  | [], _ => true
  | _ :: _, [] => false
  | a :: as, b :: bs => if a = b then charListLe as bs else decide (a < b)

/-- Insertion of a string into a sorted list. -/
def insertSorted (s : String) : List String → List String
  | [] => [s]
  | t :: rest =>
    if charListLe s.data t.data then s :: t :: rest
    else t :: insertSorted s rest

/-- extensions.sort() (line 344): lexicographic sort of the reassembled
extension-sequence strings. -/
def sortStrings : List String → List String
  | [] => []
  | s :: rest => insertSorted s (sortStrings rest)

/-- The tail of canonicalizeLanguageTag after the standard-part loop
(src/src/polyfill.js lines 330-366).  The extension-grouping while loop
(lines 335-343) tests `i < subtags.length && subtags[i] !== 'x'`; its body
evaluates `sybtags.slice(extensionStart, i)` - but no identifier `sybtags`
exists anywhere in the module, so the first iteration raises a
ReferenceError.  Consequently `extensions` can only ever be the empty
array, and a run that passes the loop test zero times proceeds to the
private-use handling and reassembly. -/
def canonicalizeTail (subtags2 : List String) (i : Nat) : Except JSError String :=
  if i < subtags2.length ∧ subtags2.getD i "" ≠ "x" then
    .error (.referenceError "sybtags")
  else
    let normal := joinHyphen (subtags2.take i)
    let extensions := sortStrings []
    let privateUse := if i < subtags2.length then joinHyphen (subtags2.drop i) else ""
    let canonical :=
      if 0 < extensions.length then normal ++ "-" ++ joinHyphen extensions else normal
    if 0 < privateUse.data.length then
      .ok (if 0 < canonical.data.length then canonical ++ "-" ++ privateUse else privateUse)
    else
      .ok canonical

/-- canonicalizeLanguageTag (src/src/polyfill.js lines 260-367): lower-case
the tag, try the whole-tag mapping table, run the standard-part loop, then
the extension/private-use tail. -/
def canonicalizeLanguageTag (T : MappingTables) (locale : String) : Except JSError String :=
  match List.lookup (asciiLower locale) T.langTagMappings with
  | some v => .ok v
  | none =>
    match stdLoopFuel T (splitTag (asciiLower locale)).length (splitTag (asciiLower locale)) 0 with
    | .error e => .error e
    | .ok (subtags2, i) => canonicalizeTail subtags2 i

/-- The locales.forEach body of canonicalizeLocaleList
(src/src/polyfill.js lines 380-386), with the JavaScript Set of
already-seen canonical tags modelled as a list in insertion order:
validate each element (throwing a RangeError that names the tag on the
first invalid one), canonicalize it, and add it unless already present. -/
def canonicalizeLocaleListGo (T : MappingTables) : List String → List String → Except JSError (List String)
  | [], seen => .ok seen
  | tag :: rest, seen =>
    if isStructurallyValidLanguageTag tag then
      match canonicalizeLanguageTag T tag with
      | .error e => .error e
      | .ok c =>
        canonicalizeLocaleListGo T rest (if seen.contains c then seen else seen ++ [c])
    else
      .error (.rangeError ("invalid language tag " ++ tag))

/-- canonicalizeLocaleList (src/src/polyfill.js lines 369-388) on an ordered
sequence of strings.  (The JavaScript entry point additionally coerces
`undefined` to the empty set and a single string to a one-element list
before this loop; the claims quantify over ordered sequences, which is the
list case embedded here.) -/
def canonicalizeLocaleList (T : MappingTables) (locales : List String) : Except JSError (List String) :=
  canonicalizeLocaleListGo T locales []

/-- The options record consulted by resolveLocale; only `localeMatcher` is
ever read before the function faults. -/
structure ResolveOptions where
  localeMatcher : String
deriving DecidableEq, Repr

/-- The record the specification says a resolution returns. -/
structure ResolutionResult where
  locale : String
  dataLocale : String
  extensions : List (String × String)
deriving DecidableEq, Repr

/-- A JavaScript value returned by a resolver entry point: either
`undefined` or a resolution record. -/
inductive JSValue where
  | undefined
  | resolution (r : ResolutionResult)
deriving DecidableEq, Repr

/-- Locale data as the spec describes it: per locale, per relevant extension
key, the list of legal values. -/
abbrev LocaleData := List (String × List (String × List String))

/-- The internal resolveLocale (src/src/polyfill.js lines 399-429).  After
reading `options.localeMatcher`, its very next expression calls
`LookupMatcher(availableLocales, requestedLocales)` or
`BestFitMatcher(availableLocales, requestedLocales)` - but neither name is
defined anywhere in the module, so evaluating the chosen branch raises a
ReferenceError for that name before anything else happens.  (Even past
that point the body would raise a TypeError at `const result = new {}` on
line 424, and the function has no return statement and no default-locale
parameter.) -/
def resolveLocale (availableLocales requestedLocales : List String)
    (options : ResolveOptions) (relevantExtensionKeys : List String)
    (localeData : LocaleData) : Except JSError JSValue :=
  if options.localeMatcher = "lookup" then .error (.referenceError "LookupMatcher")
  else .error (.referenceError "BestFitMatcher")

/-- The `resolveLocale` actually exported on the public `Locale` object
(src/src/polyfill.js line 433) is the empty function literal
`function() {}`: it ignores every argument and returns `undefined`. -/
def Locale_resolveLocale (availableLocales requestedLocales : List String)
    (options : ResolveOptions) (relevantExtensionKeys : List String)
    (localeData : LocaleData) : Except JSError JSValue :=
  .ok .undefined

/-- Position of the first one-character subtag in a list, if any. -/
def firstLen1Idx : List String → Option Nat
  | [] => none
  | s :: rest =>
    if s.data.length = 1 then some 0
    else
      match firstLen1Idx rest with
      | some n => some (n + 1)
      | none => none

/-- The exact condition under which the extension-grouping loop of
canonicalizeLanguageTag is entered (and hence the undefined identifier
`sybtags` is evaluated): the lower-cased tag's subtag list does not begin
with `x`, and its first one-character subtag after position 0 exists and
is not `x`.  The standard-part loop stops at exactly that subtag, and the
loop test `subtags[i] !== 'x'` then succeeds. -/
def extensionCrashCondition (locale : String) : Bool :=
  match splitTag (asciiLower locale) with
  | [] => false
  | p0 :: rest =>
    (p0 != "x") &&
      (match firstLen1Idx rest with
       | some k => rest.getD k "" != "x"
       | none => false)

/-- Propositional equality on `Except` results is decidable, so the closed
evaluation theorems below can be settled with `decide`. -/
instance exceptDecEq {e a : Type} [DecidableEq e] [DecidableEq a] : DecidableEq (Except e a) :=
  fun x y =>
    match x, y with
    | .error e1, .error e2 =>
      if h : e1 = e2 then isTrue (by rw [h]) else isFalse (fun hc => h (Except.error.inj hc))
    | .error _, .ok _ => isFalse (fun hc => Except.noConfusion hc)
    | .ok _, .error _ => isFalse (fun hc => Except.noConfusion hc)
    | .ok a1, .ok a2 =>
      if h : a1 = a2 then isTrue (by rw [h]) else isFalse (fun hc => h (Except.ok.inj hc))

/-- getD on the head of a cons cell. -/
theorem getD_strCons_zero (a : String) (l : List String) : (a :: l).getD 0 "" = a := rfl

/-- getD on the tail of a cons cell. -/
theorem getD_strCons_succ (a : String) (l : List String) (n : Nat) :
    (a :: l).getD (n + 1) "" = l.getD n "" := rfl

/-- Writing one position of a list leaves every other position unchanged. -/
theorem getD_set_of_ne (v : String) :
    ∀ (l : List String) (i m : Nat), i ≠ m → (l.set i v).getD m "" = l.getD m "" := by
  intro l
  induction l with
  | nil => intro i m _; simp
  | cons a t ih =>
    intro i m hne
    cases i with
    | zero =>
      cases m with
      | zero => exact absurd rfl hne
      | succ m' => rfl
    | succ i' =>
      cases m with
      | zero => rfl
      | succ m' =>
        have : (a :: t).set (i' + 1) v = a :: t.set i' v := rfl
        rw [this, getD_strCons_succ, getD_strCons_succ]
        exact ih i' m' (fun h => hne (by rw [h]))

/-- What `firstLen1Idx l = some k` guarantees: position `k` is in range,
holds a one-character subtag, and is the first such position. -/
theorem firstLen1Idx_spec :
    ∀ (l : List String) (k : Nat), firstLen1Idx l = some k →
      k < l.length ∧ (l.getD k "").data.length = 1 ∧
        ∀ m, m < k → ((l.getD m "").data.length = 1 → False) := by
  intro l
  induction l with
  | nil => intro k h; cases h
  | cons s rest ih =>
    intro k h
    by_cases h1 : s.data.length = 1
    · rw [firstLen1Idx, if_pos h1] at h
      cases h
      refine ⟨by simp, h1, ?_⟩
      intro m hm
      omega
    · rw [firstLen1Idx, if_neg h1] at h
      cases hf : firstLen1Idx rest with
      | none => rw [hf] at h; cases h
      | some k' =>
        rw [hf] at h
        cases h
        obtain ⟨hlt, hlen, hfirst⟩ := ih k' hf
        refine ⟨by simpa using hlt, by rwa [getD_strCons_succ], ?_⟩
        intro m hm
        cases m with
        | zero => rw [getD_strCons_zero]; exact fun hc => h1 hc
        | succ m' =>
          rw [getD_strCons_succ]
          exact hfirst m' (by omega)

/-- Behaviour of the standard-part loop over the empty source tables when
position `j` holds the first one-character subtag at or after `i` (with
`1 ≤ i`): every earlier step takes the no-mapping branch (the lookups in
the empty tables miss), so the loop stops exactly at `j` having only
re-cased entries before `j`, leaving position `j` itself untouched. -/
theorem stdLoopFuel_break :
    ∀ (fuel : Nat) (parts : List String) (i j : Nat),
      1 ≤ i → i ≤ j → j < parts.length → parts.length ≤ fuel + i →
      (parts.getD j "").data.length = 1 →
      (∀ k, i ≤ k → k < j → ((parts.getD k "").data.length = 1 → False)) →
      ∃ parts2, stdLoopFuel srcTables fuel parts i = .ok (parts2, j) ∧
        parts2.length = parts.length ∧ parts2.getD j "" = parts.getD j "" := by
  intro fuel
  induction fuel with
  | zero => intro parts i j h1 hij hj hlen _ _; omega
  | succ fuel ih =>
    intro parts i j h1 hij hj hlen hj1 hmid
    have hi : i < parts.length := Nat.lt_of_le_of_lt hij hj
    by_cases heq : i = j
    · subst heq
      refine ⟨parts, ?_, rfl, rfl⟩
      rw [stdLoopFuel, if_pos hi, if_pos ⟨hj1, Or.inl h1⟩]
    · have hilt : i < j := Nat.lt_of_le_of_ne hij heq
      have hne1 : ((parts.getD i "").data.length = 1 → False) :=
        hmid i (Nat.le_refl i) hilt
      rw [stdLoopFuel, if_pos hi, if_neg (fun hc => hne1 hc.1)]
      show ∃ parts2,
        (match List.lookup (recaseSubtag i (parts.getD i "")) srcTables.langSubtagMappings with
         | some v => stdLoopFuel srcTables fuel (parts.set i v) (i + 1)
         | none =>
           match List.lookup (recaseSubtag i (parts.getD i "")) srcTables.extlangMappings with
           | some e =>
             if i = 1 then
               match List.lookup e.preferred srcTables.extlangMappings with
               | some e2 =>
                 if e2.pfx = parts.getD 0 "" then
                   stdLoopFuel srcTables fuel ((parts.drop 1).set 0 e.preferred) 1
                 else stdLoopFuel srcTables fuel (parts.set i e.preferred) (i + 1)
               | none => .error (.typeError "cannot read prop of undefined")
             else stdLoopFuel srcTables fuel (parts.set i e.preferred) (i + 1)
           | none =>
             stdLoopFuel srcTables fuel (parts.set i (recaseSubtag i (parts.getD i ""))) (i + 1)) = .ok (parts2, j) ∧
        parts2.length = parts.length ∧ parts2.getD j "" = parts.getD j ""
      have hlk1 : List.lookup (recaseSubtag i (parts.getD i "")) srcTables.langSubtagMappings = none := rfl
      have hlk2 : List.lookup (recaseSubtag i (parts.getD i "")) srcTables.extlangMappings = none := rfl
      rw [hlk1, hlk2]
      obtain ⟨parts2, hrun, hlen2, hgd2⟩ :=
        ih (parts.set i (recaseSubtag i (parts.getD i ""))) (i + 1) j
          (by omega) (by omega) (by simpa [List.length_set] using hj)
          (by simp [List.length_set]; omega)
          (by rw [getD_set_of_ne _ _ _ _ (by omega)]; exact hj1)
          (fun k hk1 hk2 => by
            rw [getD_set_of_ne _ _ _ _ (by omega)]
            exact hmid k (by omega) hk2)
      refine ⟨parts2, hrun, ?_, ?_⟩
      · rw [hlen2, List.length_set]
      · rw [hgd2, getD_set_of_ne _ _ _ _ (by omega)]

/-- If canonicalization of `t` raises the `sybtags` ReferenceError, then the
forEach loop of the list canonicalizer raises (some error) on every list
containing `t`, whatever has been accumulated so far: it either faults
before reaching `t` or faults at `t` itself. -/
theorem canonicalizeLocaleListGo_error (t : String)
    (hc : canonicalizeLanguageTag srcTables t = .error (.referenceError "sybtags")) :
    ∀ (l seen : List String), t ∈ l →
      ∃ e, canonicalizeLocaleListGo srcTables l seen = .error e := by
  intro l
  induction l with
  | nil => intro seen h; cases h
  | cons a rest ih =>
    intro seen hmem
    by_cases hv : isStructurallyValidLanguageTag a = true
    · cases hca : canonicalizeLanguageTag srcTables a with
      | error e =>
        refine ⟨e, ?_⟩
        rw [canonicalizeLocaleListGo, if_pos hv, hca]
      | ok c =>
        have hat : a ≠ t := by
          intro h
          rw [h, hc] at hca
          cases hca
        have hmem' : t ∈ rest := by
          cases hmem with
          | head => exact absurd rfl (fun h => hat h.symm)
          | tail _ h => exact h
        obtain ⟨e, he⟩ := ih (if seen.contains c then seen else seen ++ [c]) hmem'
        refine ⟨e, ?_⟩
        rw [canonicalizeLocaleListGo, if_pos hv, hca]
        exact he
    · refine ⟨.rangeError ("invalid language tag " ++ a), ?_⟩
      rw [canonicalizeLocaleListGo, if_neg hv]

/-- Claim C1: the list canonicalizer is claimed to raise a RangeError naming
the first structurally invalid element of any sequence containing one,
processing nothing past it.  The first conjuncts show this does hold for
the spec's own example (the elements before the invalid one carry no
extension sequence); the last conjunct is the divergence: on a sequence
whose first element is valid but carries an extension sequence, the call
instead raises the ReferenceError from the undefined identifier `sybtags`
while canonicalizing that valid element, and the RangeError naming the
invalid tag is never reached. -/
theorem c1_fail_fast_divergence :
    canonicalizeLocaleList srcTables ["de", "wrong-tag", "fr-FR"] =
      .error (.rangeError "invalid language tag wrong-tag") ∧
    isStructurallyValidLanguageTag "wrong-tag" = false ∧
    isStructurallyValidLanguageTag "en-u-ca-chinese" = true ∧
    canonicalizeLocaleList srcTables ["en-u-ca-chinese", "wrong-tag"] =
      .error (.referenceError "sybtags") := by decide

/-- Claim C2: canonicalization is claimed idempotent on every structurally
valid tag.  The evaluation shows the failing input: `en-u-ca-chinese` is
structurally valid, yet canonicalizeLanguageTag raises the ReferenceError
from the undefined identifier `sybtags`, so `canonicalize(canonicalize t)`
never produces the value the claim equates. -/
theorem c2_idempotence_failing_input :
    isStructurallyValidLanguageTag "en-u-ca-chinese" = true ∧
    canonicalizeLanguageTag srcTables "en-u-ca-chinese" =
      .error (.referenceError "sybtags") := by decide

/-- Claim C3: the Unicode-extension stripper is claimed to remove exactly one
`-u-` extension subsequence.  In fact removeUnicodeExtensions is the
identity on every input - it reassembles the two pieces it split at the
`-x-` boundary without ever applying the extension pattern - so on the
failing input `de-u-ca-chinese` it returns the tag unchanged instead of
the claimed `de`. -/
theorem c3_remove_unicode_extensions_is_identity :
    (∀ locale : String, removeUnicodeExtensions locale = locale) ∧
    removeUnicodeExtensions "de-u-ca-chinese" ≠ "de" := by
  constructor
  · intro locale
    rw [removeUnicodeExtensions]
    split
    · rfl
    · have h : ∀ n : Nat,
          String.mk (locale.data.take n) ++ String.mk (locale.data.drop n) = locale := by
        intro n
        have h2 : String.mk (locale.data.take n) ++ String.mk (locale.data.drop n) =
            String.mk (locale.data.take n ++ locale.data.drop n) := rfl
        rw [h2, List.take_append_drop]
      exact h _
  · decide

/-- Claim C4: tags with several extension sequences are claimed (by the spec
and by the function's own doc comment) to come back with the reassembled
sequences sorted lexicographically.  The evaluation shows the structurally
valid tag `de-u-ca-chinese-t-zh-latn` instead raises the ReferenceError
from the undefined identifier `sybtags` in the extension-grouping loop, so
no sorted result is ever produced. -/
theorem c4_extension_sorting_crash :
    isStructurallyValidLanguageTag "de-u-ca-chinese-t-zh-latn" = true ∧
    canonicalizeLanguageTag srcTables "de-u-ca-chinese-t-zh-latn" =
      .error (.referenceError "sybtags") := by decide

/-- Claim C5: with the mapping tables the spec describes (modelled in
`specTables`, since src leaves the tables empty for the external
locale-data provider to fill), canonicalizeLanguageTag("Zh-NAN-haNS-bu")
title-cases the script, elides the redundant `zh` before the extlang
`nan`, upper-cases the region and remaps BU to MM, yielding
`nan-Hans-MM`. -/
theorem c5_canonicalize_zh_nan_hans_bu :
    canonicalizeLanguageTag specTables "Zh-NAN-haNS-bu" = .ok "nan-Hans-MM" := by decide

/-- Claim C6: the validator is claimed to reject a duplicated variant subtag
case-insensitively.  The first four conjuncts confirm the claim's example
behaviour (duplicate singleton and duplicate variant rejected, accepted
again once one occurrence is removed); the last conjunct is the
divergence: `en-fonipa-FONIPA` - the same variant twice up to case - is
accepted, because duplicateVariantRE is constructed without the i flag and
its backreference therefore compares case-sensitively. -/
theorem c6_duplicate_detection_case_sensitivity :
    isStructurallyValidLanguageTag "en-a-bbb-a-ccc" = false ∧
    isStructurallyValidLanguageTag "en-fonipa-fonipa" = false ∧
    isStructurallyValidLanguageTag "en-a-bbb" = true ∧
    isStructurallyValidLanguageTag "en-fonipa" = true ∧
    isStructurallyValidLanguageTag "en-fonipa-FONIPA" = true := by decide

/-- Claim C7: resolution is claimed never to fail and to fall back to the
caller-supplied default locale on an empty request list.  The evaluation
at exactly that scenario shows the internal resolveLocale raising a
ReferenceError at the very first step for either matcher value (the
matcher functions are never defined), while the public
Locale.resolveLocale returns undefined rather than any ResolutionResult;
no default-locale fallback exists anywhere. -/
theorem c7_resolve_locale_always_raises :
    resolveLocale ["en-US"] [] ⟨"lookup"⟩ [] [] = .error (.referenceError "LookupMatcher") ∧
    resolveLocale ["en-US"] [] ⟨"best-fit"⟩ [] [] = .error (.referenceError "BestFitMatcher") ∧
    Locale_resolveLocale ["en-US"] [] ⟨"lookup"⟩ [] [] = .ok JSValue.undefined := by decide

/-- Claim C8: the list canonicalizer is claimed to return the canonical forms
of every sequence of structurally valid tags as a first-seen-order
deduplicated set.  The last conjunct confirms the dedup-order behaviour on
extension-free tags; the first two are the divergence: the one-element
sequence `[en-u-ca-chinese]` consists solely of structurally valid tags
yet raises the `sybtags` ReferenceError instead of returning a set. -/
theorem c8_dedup_order_and_crash :
    (["en-u-ca-chinese"].all isStructurallyValidLanguageTag) = true ∧
    canonicalizeLocaleList srcTables ["en-u-ca-chinese"] = .error (.referenceError "sybtags") ∧
    canonicalizeLocaleList srcTables ["de", "fr-FR", "de"] = .ok ["de", "fr-FR"] := by decide

/-- Claim C9, as literally stated, is false: `x-a-b` is structurally valid
and its subtag list does contain a one-character non-`x` subtag after
position 0 (the claim's reading of "contains an extension sequence"), yet
canonicalizeLanguageTag returns it unchanged instead of raising - the
standard-part walk stops at the leading `x` and the extension-grouping
loop never runs. -/
theorem c9_literal_condition_counterexample :
    isStructurallyValidLanguageTag "x-a-b" = true ∧
    (((splitTag (asciiLower "x-a-b")).drop 1).any
      (fun s => decide (s.data.length = 1) && (s != "x"))) = true ∧
    canonicalizeLanguageTag srcTables "x-a-b" = .ok "x-a-b" := by decide

/-- Claim C9 (amended): for every structurally valid tag whose lower-cased
subtag list does not begin with `x` and whose first one-character subtag
after position 0 exists and is not `x` - exactly the tags on which the
extension-grouping loop of canonicalizeLanguageTag is entered -
canonicalization evaluates the undefined identifier `sybtags` and raises
a ReferenceError, and canonicalizeLocaleList raises on every list
containing such a tag. -/
theorem c9_extension_grouping_reference_error :
    ∀ t : String, isStructurallyValidLanguageTag t = true →
      extensionCrashCondition t = true →
      canonicalizeLanguageTag srcTables t = .error (.referenceError "sybtags") ∧
      ∀ l : List String, t ∈ l →
        ∃ e, canonicalizeLocaleList srcTables l = .error e := by
  intro t _hval hcond
  have hmain : canonicalizeLanguageTag srcTables t = .error (.referenceError "sybtags") := by
    rw [extensionCrashCondition] at hcond
    cases hsplit : splitTag (asciiLower t) with
    | nil => rw [hsplit] at hcond; cases hcond
    | cons p0 rest =>
      rw [hsplit] at hcond
      rw [Bool.and_eq_true] at hcond
      obtain ⟨hp0', hrest⟩ := hcond
      have hp0 : p0 ≠ "x" := by simpa using hp0'
      cases hfi : firstLen1Idx rest with
      | none => rw [hfi] at hrest; cases hrest
      | some k =>
        rw [hfi] at hrest
        have hkx : rest.getD k "" ≠ "x" := by simpa using hrest
        obtain ⟨hklen, hk1, hkfirst⟩ := firstLen1Idx_spec rest k hfi
        rw [canonicalizeLanguageTag]
        have hlk0 : List.lookup (asciiLower t) srcTables.langTagMappings = none := rfl
        rw [hlk0, hsplit]
        have hlc : (p0 :: rest).length = rest.length + 1 := rfl
        rw [hlc]
        rw [stdLoopFuel]
        have h0lt : 0 < (p0 :: rest).length := by simp
        rw [if_pos h0lt]
        have hbreak : ¬(((p0 :: rest).getD 0 "").data.length = 1 ∧
            (0 < 0 ∨ (p0 :: rest).getD 0 "" = "x")) := by
          rw [getD_strCons_zero]
          rintro ⟨-, h | h⟩
          · omega
          · exact hp0 h
        rw [if_neg hbreak]
        have hlk1 : List.lookup (recaseSubtag 0 ((p0 :: rest).getD 0 ""))
            srcTables.langSubtagMappings = none := rfl
        have hlk2 : List.lookup (recaseSubtag 0 ((p0 :: rest).getD 0 ""))
            srcTables.extlangMappings = none := rfl
        rw [hlk1, hlk2]
        have hset : (p0 :: rest).set 0 (recaseSubtag 0 ((p0 :: rest).getD 0 "")) =
            recaseSubtag 0 ((p0 :: rest).getD 0 "") :: rest := rfl
        rw [hset]
        obtain ⟨parts2, hrun, hlen2, hgd2⟩ :=
          stdLoopFuel_break rest.length
            (recaseSubtag 0 ((p0 :: rest).getD 0 "") :: rest) 1 (k + 1)
            (Nat.le_refl 1) (by omega) (by simp; omega) (by simp)
            (by rw [getD_strCons_succ]; exact hk1)
            (fun k' hk'1 hk'2 => by
              cases k' with
              | zero => omega
              | succ m =>
                rw [getD_strCons_succ]
                exact hkfirst m (by omega))
        rw [hrun]
        show canonicalizeTail parts2 (k + 1) = _
        rw [canonicalizeTail, if_pos ?hcnd]
        case hcnd =>
          constructor
          · rw [hlen2]; simp; omega
          · rw [hgd2, getD_strCons_succ]; exact hkx
  exact ⟨hmain, fun l hl => by
    rw [canonicalizeLocaleList]
    exact canonicalizeLocaleListGo_error t hmain l [] hl⟩

/-- Claim C9 witness: the amended theorem applied at the concrete valid tag
`de-u-ca`, whose first one-character subtag after position 0 is the
extension singleton `u`. -/
theorem c9_extension_grouping_reference_error_witness :
    isStructurallyValidLanguageTag "de-u-ca" = true ∧
    extensionCrashCondition "de-u-ca" = true ∧
    canonicalizeLanguageTag srcTables "de-u-ca" = .error (.referenceError "sybtags") ∧
    ∃ e, canonicalizeLocaleList srcTables ["de-u-ca"] = .error e :=
  ⟨by decide, by decide,
   (c9_extension_grouping_reference_error "de-u-ca" (by decide) (by decide)).1,
   (c9_extension_grouping_reference_error "de-u-ca" (by decide) (by decide)).2
     ["de-u-ca"] (List.mem_singleton.mpr rfl)⟩

/-- Claim C10: the publicly exported Locale.resolveLocale is the empty
function literal, not the internal resolver: at every argument list it
returns undefined (a constant result, so no argument is inspected), never
a ResolutionResult, and its behaviour differs from the internal
resolveLocale at every argument list. -/
theorem c10_public_resolve_locale_is_not_the_resolver :
    ∀ (a r : List String) (o : ResolveOptions) (k : List String) (d : LocaleData)
      (a2 r2 : List String) (o2 : ResolveOptions) (k2 : List String) (d2 : LocaleData),
      Locale_resolveLocale a r o k d = .ok JSValue.undefined ∧
      Locale_resolveLocale a r o k d = Locale_resolveLocale a2 r2 o2 k2 d2 ∧
      (∀ res : ResolutionResult, Locale_resolveLocale a r o k d ≠ .ok (.resolution res)) ∧
      Locale_resolveLocale a r o k d ≠ resolveLocale a r o k d := by
  intro a r o k d a2 r2 o2 k2 d2
  refine ⟨rfl, rfl, fun res h => by simp [Locale_resolveLocale] at h, ?_⟩
  rw [Locale_resolveLocale, resolveLocale]
  split
  · intro h; cases h
  · intro h; cases h
